import Mathlib

/-!
Shallow embedding of the growth-tracker pipeline (src/main.py, src/scheduler.py).

Strings are modelled by Lean `String` (lists of characters); Python regular
expressions used in the source are embedded as explicit scanning functions
with the same leftmost, greedy, non-overlapping `findall`/`search` semantics.
External services (Slack HTTP, page fetches, the Claude API, the Notion API)
are modelled as oracle functions supplied in a `World`; the pipeline itself
is the pure code of `main.py` over those oracles, accumulating a trace of
the externally visible calls it issues.
-/

/-! ### Basic character/string utilities -/

/-- The exact character class of Python's `\s`, `str.isspace` and
`str.strip()` (identical sets, verified against CPython over the BMP):
`09-0D`, `1C-1F`, space, NEL `85`, NBSP `A0`, `1680`, `2000-200A`,
`2028`, `2029`, `202F`, `205F`, `3000`. -/
def pySpace (c : Char) : Bool :=
  ('\x09' ≤ c ∧ c ≤ '\x0d') ∨ ('\x1c' ≤ c ∧ c ≤ '\x1f') ∨ c = ' ' ∨
    c = '\u0085' ∨ c = '\u00a0' ∨ c = '\u1680' ∨
    ('\u2000' ≤ c ∧ c ≤ '\u200a') ∨ c = '\u2028' ∨ c = '\u2029' ∨
    c = '\u202f' ∨ c = '\u205f' ∨ c = '\u3000'

/-- `needle in hay` for Python strings, on character lists. -/
def containsSub (needle : List Char) : List Char → Bool
  | [] => needle.isEmpty
  | c :: cs => needle.isPrefixOf (c :: cs) || containsSub needle cs

/-- `needle in hay` for Python strings. -/
def strContainsSub (hay needle : String) : Bool :=
  containsSub needle.data hay.data

/-- Python `str.strip()` (both ends, ASCII whitespace). -/
def pyStrip (s : String) : String :=
  ⟨((s.data.dropWhile pySpace).reverse.dropWhile pySpace).reverse⟩

/-- Python `str.rstrip(".")`: drop trailing `.` characters. -/
def pyRstripDot (s : String) : String :=
  ⟨(s.data.reverse.dropWhile (fun c => c = '.')).reverse⟩

/-- Python truthy-`or` on strings: `a or b` is `a` when `a` is a non-empty
string, else `b`. -/
def pyOrStr (a : Option String) (b : String) : String :=
  match a with
  | some s => if s = "" then b else s
  | none => b

/-! ### URL extraction (`extract_urls`, main.py lines 54-61)

`re.findall(r"<(https?://[^>|]+)(?:\|[^>]*)?>", text)` and the fallback
`re.findall(r"https?://[^\s<>\"]+", text)` are embedded as left-to-right
scanners: at each position try to match; on a match, emit the group and
resume after the match; otherwise advance one character. -/

/-- Consume a literal `https?://` prefix (greedy `s?`, which is
deterministic here since `s ≠ ':'`), returning the consumed scheme
characters and the rest. -/
def schemeSplit (cs : List Char) : Option (List Char × List Char) :=
  let hs : List Char := ['h', 't', 't', 'p', 's', ':', '/', '/']
  let h : List Char := ['h', 't', 't', 'p', ':', '/', '/']
  if hs.isPrefixOf cs then some (hs, cs.drop 8)
  else if h.isPrefixOf cs then some (h, cs.drop 7)
  else none

/-- One attempted match of `<(https?://[^>|]+)(?:\|[^>]*)?>` anchored at the
head of `cs`; returns the captured group and the remainder after the match.
Backtracking never changes the greedy result here: `[^>|]+` stops exactly at
the first `>`/`|`, and the optional label group must then close with `>`. -/
def matchSlackAt (cs : List Char) : Option (List Char × List Char) :=
  match cs with
  | '<' :: cs1 =>
    match schemeSplit cs1 with
    | none => none
    | some (scheme, cs2) =>
      let run := cs2.takeWhile (fun c => ¬(c = '>' ∨ c = '|'))
      let rest := cs2.dropWhile (fun c => ¬(c = '>' ∨ c = '|'))
      if run.isEmpty then none
      else
        match rest with
        | '>' :: rest2 => some (scheme ++ run, rest2)
        | '|' :: rest2 =>
          (match rest2.dropWhile (fun c => ¬(c = '>')) with
           | '>' :: rest3 => some (scheme ++ run, rest3)
           | _ => none)
        | _ => none
  | _ => none

/-- `re.findall` scan for the Slack bracket-link regex (fuel-indexed; the
fuel `cs.length` always suffices because every step consumes at least one
character). -/
def scanSlack : Nat → List Char → List (List Char)
  | 0, _ => []
  | _ + 1, [] => []
  | n + 1, c :: cs =>
    match matchSlackAt (c :: cs) with
    | some (g, rest) => g :: scanSlack n rest
    | none => scanSlack n cs

/-- The list of Slack bracket-link matches of a message text. -/
def slackMatches (text : String) : List String :=
  (scanSlack text.data.length text.data).map (fun cs => ⟨cs⟩)

/-- One attempted match of a bare-URL regex `https?://[^STOP]+` anchored at
the head of `cs`, parameterized by the stop-character class. -/
def matchBareAt (stop : Char → Bool) (cs : List Char) :
    Option (List Char × List Char) :=
  match schemeSplit cs with
  | none => none
  | some (scheme, cs2) =>
    let run := cs2.takeWhile (fun c => !stop c)
    if run.isEmpty then none
    else some (scheme ++ run, cs2.dropWhile (fun c => !stop c))

/-- `re.findall` scan for a bare-URL regex. -/
def scanBare (stop : Char → Bool) : Nat → List Char → List (List Char)
  | 0, _ => []
  | _ + 1, [] => []
  | n + 1, c :: cs =>
    match matchBareAt stop (c :: cs) with
    | some (g, rest) => g :: scanBare stop n rest
    | none => scanBare stop n cs

/-- Stop class of the fallback regex `https?://[^\s<>"]+`. -/
def stopBare (c : Char) : Bool :=
  pySpace c || c = '<' || c = '>' || c = '"'

/-- The list of bare-URL matches of a message text (fallback rule). -/
def bareMatches (text : String) : List String :=
  (scanBare stopBare text.data.length text.data).map (fun cs => ⟨cs⟩)

/-- `extract_urls` (main.py lines 54-61): Slack bracket matches if any,
else bare URLs. -/
def extract_urls (text : String) : List String :=
  let slack_urls := slackMatches text
  if slack_urls.isEmpty then bareMatches text else slack_urls

example : extract_urls "see <https://example.com/a|click> now" =
    ["https://example.com/a"] := by rfl

example : extract_urls "go https://a.io/x and http://b.io." =
    ["https://a.io/x", "http://b.io."] := by rfl

example : extract_urls "<https://a.io> and https://bare.io" =
    ["https://a.io"] := by rfl

example : extract_urls "nothing here" = [] := by rfl

/-! ### Calendar dates (`datetime.fromtimestamp(, tz=utc).strftime("%Y-%m-%d")`)

The source converts epoch milliseconds/seconds to a UTC calendar date.  We
embed the proleptic-Gregorian civil-from-days algorithm on integer day
numbers.  (For every value in `datetime`'s representable range the float
division `ms / 1000` in the source is exact at day granularity, so the
integer day number below is the day `datetime` computes.) -/

/-- Civil (proleptic Gregorian) date from a count of days since 1970-01-01:
returns (year, month, day). -/
def civilFromDays (z : Int) : Int × Nat × Nat :=
  let z' := z + 719468
  let era := z'.fdiv 146097
  let doe := (z' - era * 146097).toNat
  let yoe := (doe - doe / 1460 + doe / 36524 - doe / 146096) / 365
  let doy := doe - (365 * yoe + yoe / 4 - yoe / 100)
  let mp := (5 * doy + 2) / 153
  let d := doy - (153 * mp + 2) / 5 + 1
  let m := if mp < 10 then mp + 3 else mp - 9
  let y : Int := (yoe : Int) + era * 400 + (if m ≤ 2 then 1 else 0)
  (y, m, d)

/-- Left-pad a numeral string with zeros to the given width. -/
def padZeros (w : Nat) (s : String) : String :=
  ⟨List.replicate (w - s.data.length) '0' ++ s.data⟩

/-- `strftime("%Y-%m-%d")` for a (year, month, day) triple (years in this
pipeline lie in 1970..9999, so `%Y` is the plain 4-digit year). -/
def formatCivil : Int × Nat × Nat → String
  | (y, m, d) =>
    padZeros 4 (toString y.toNat) ++ "-" ++ padZeros 2 (toString m) ++ "-" ++
      padZeros 2 (toString d)

/-- The greatest epoch-millisecond count `datetime.fromtimestamp` accepts:
the last millisecond of 9999-12-31 UTC (`datetime.max`).  The next
millisecond raises (verified against CPython at this exact boundary). -/
def maxDatetimeMillis : Nat := 253402300799999

/-- `datetime.fromtimestamp(ms / 1000, tz=utc).strftime("%Y-%m-%d")` on a
count of milliseconds since the epoch: the formatted UTC calendar date,
or `none` when the timestamp is beyond `datetime`'s range and the call
raises (`OverflowError`/`ValueError`/`OSError`). -/
def utcDateStrOfMillis (ms : Nat) : Option String :=
  if ms ≤ maxDatetimeMillis then
    some (formatCivil (civilFromDays ((ms / 86400000 : Nat) : Int)))
  else none

/-- UTC calendar date string of a count of microseconds since the epoch
(used for `datetime.fromtimestamp(float(ts))` on Slack timestamps). -/
def utcDateStrOfMicros (k : Int) : String :=
  formatCivil (civilFromDays (k.fdiv 86400000000))

/-! ### LinkedIn activity-date decoding
(`decode_linkedin_activity_date`, main.py lines 64-72)

`re.search(r"activity[:-](\d+)", url)` is embedded as a left-to-right scan
for the leftmost match; the captured digits are parsed greedily. -/

/-- The literal `activity`. -/
def activityLit : List Char := ['a', 'c', 't', 'i', 'v', 'i', 't', 'y']

/-- Integer value of a digit string (Python `int`). -/
def digitsToNat (ds : List Char) : Nat :=
  ds.foldl (fun a c => a * 10 + (c.toNat - 48)) 0

/-- One attempted match of `activity[:-](\d+)` anchored at the head of `cs`,
returning the captured integer. -/
def tryActivityAt (cs : List Char) : Option Nat :=
  if activityLit.isPrefixOf cs then
    match cs.drop 8 with
    | sep :: rest =>
      if sep = ':' ∨ sep = '-' then
        let ds := rest.takeWhile Char.isDigit
        if ds.isEmpty then none else some (digitsToNat ds)
      else none
    | [] => none
  else none

/-- `re.search` for `activity[:-](\d+)`: the captured integer of the
leftmost match, if any. -/
def activitySearch : List Char → Option Nat
  | [] => none
  | c :: cs =>
    match tryActivityAt (c :: cs) with
    | some v => some v
    | none => activitySearch cs

/-- The three observable outcomes of `decode_linkedin_activity_date`:
a formatted date, the `None` return when no identifier matches, or an
uncaught exception (the function has no try/except, so `error` propagates
out of `poll_and_process` and aborts the cycle). -/
inductive DecodeResult where
  | date (s : String)
  | noMatch
  | error
deriving DecidableEq

/-- `decode_linkedin_activity_date` (main.py lines 64-72): leftmost
`activity[:-]digits` identifier, right-shifted 22 bits, read as epoch
milliseconds, formatted as a UTC calendar date; `fromtimestamp` raises for
out-of-range timestamps. -/
def decode_linkedin_activity_date (url : String) : DecodeResult :=
  match activitySearch url.data with
  | none => DecodeResult.noMatch
  | some activity_id =>
    match utcDateStrOfMillis (activity_id >>> 22) with
    | some s => DecodeResult.date s
    | none => DecodeResult.error

example :
    decode_linkedin_activity_date
      "https://www.linkedin.com/feed/update/urn:li:activity:7020656157437648896/" =
    DecodeResult.date "2023-01-16" := by rfl

example : decode_linkedin_activity_date "https://example.com/jobs" =
    DecodeResult.noMatch := by rfl

example : decode_linkedin_activity_date
    "https://linkedin.com/feed/activity:9999999999999999999999999999/" =
    DecodeResult.error := by rfl

/-! ### Page fetching (`fetch_page_content`, main.py lines 75-91)

The HTTP layer is an oracle giving, per URL, either the final response
(status and body text, after `requests` has followed redirects) or a
network-level failure (connection error / timeout).  `raise_for_status`
raises exactly for statuses in 400-599 (4xx client and 5xx server errors;
a status outside that window, such as LinkedIn's 999, does not raise);
every exception is caught and turned into the empty string. -/

/-- Outcome of `requests.get(...)` for a URL: the final response, or a
network error / timeout. -/
inductive HttpResult where
  | response (status : Nat) (text : String)
  | failure
deriving DecidableEq

/-- `fetch_page_content` over a network oracle: body text truncated to
15000 characters, or `""` on any error. -/
def fetch_page_content (net : String → HttpResult) (url : String) : String :=
  match net url with
  | HttpResult.response status text =>
    if 400 ≤ status ∧ status < 600 then "" else ⟨text.data.take 15000⟩
  | HttpResult.failure => ""

/-! ### Job-board URL sniffing (`extract_job_urls_from_page`,
main.py lines 114-134) -/

/-- Stop class of the in-page URL regex `https?://[^\s<>"\'\\,;)}\]]+`. -/
def stopPage (c : Char) : Bool :=
  pySpace c || c = '<' || c = '>' || c = '"' || c = '\'' || c = '\\' ||
    c = ',' || c = ';' || c = ')' || c = '}' || c = ']'

/-- Known job-board domain substrings (main.py lines 95-111). -/
def JOB_BOARD_PATTERNS : List String :=
  ["greenhouse.io", "boards.greenhouse.io",
   "lever.co", "jobs.lever.co",
   "ashbyhq.com", "jobs.ashbyhq.com",
   "workday.com", "myworkdayjobs.com",
   "smartrecruiters.com",
   "jobvite.com",
   "icims.com",
   "applytojob.com",
   "bamboohr.com",
   "recruitee.com",
   "workable.com",
   "breezy.hr",
   "jazz.co", "resumator.com",
   "wellfound.com",
   "linkedin.com/jobs/view"]

/-- `extract_job_urls_from_page` (main.py lines 114-134): every raw URL in
the page, trailing periods stripped, the source URL excluded, filtered to
known job-board domains, de-duplicated preserving first-seen order. -/
def extract_job_urls_from_page (page_content : String) (source_url : String) :
    List String :=
  let raw_urls :=
    (scanBare stopPage page_content.data.length page_content.data).map
      (fun cs => (⟨cs⟩ : String))
  (raw_urls.foldl
    (fun job_urls u =>
      let url := pyRstripDot u
      if url = source_url then job_urls
      else if JOB_BOARD_PATTERNS.any (fun d => strContainsSub url d) then
        (if job_urls.contains url then job_urls else job_urls ++ [url])
      else job_urls)
    [])

example :
    extract_job_urls_from_page
      "<a href=https://jobs.lever.co/acme/1> x https://jobs.lever.co/acme/1. and https://other.io/z"
      "https://li.com/p" = ["https://jobs.lever.co/acme/1"] := by rfl

/-! ### JSON dictionaries for extracted job details

`json.loads` of the model reply yields a dict; the pipeline distinguishes a
key that is absent from a key bound to `null` (and `""` is falsy like
`None`), so the model keeps bindings explicit. -/

/-- A JSON value as the pipeline consumes it: `null` or a string. -/
inductive JVal where
  | null
  | str (s : String)
deriving DecidableEq

/-- A JSON object: ordered key/value bindings (keys unique, as from
`json.loads`). -/
abbrev JsonDict := List (String × JVal)

/-- `d.get(k)`: `none` when the key is absent (Python `None` for an absent
key; a present `null` is `some JVal.null`). -/
def jget (d : JsonDict) (k : String) : Option JVal :=
  (d.find? (fun e => e.1 = k)).map (fun e => e.2)

/-- Python truthiness of `d.get(k)`: true exactly for a present, non-empty
string value. -/
def jvalTruthy : Option JVal → Bool
  | some (JVal.str s) => decide (s ≠ "")
  | _ => false

/-- The string under a present string value (only used under a
`jvalTruthy` guard). -/
def jvalString : Option JVal → String
  | some (JVal.str s) => s
  | _ => ""

/-- A present string value, or `none`. -/
def jvalToStr : Option JVal → Option String
  | some (JVal.str s) => some s
  | _ => none

/-- `d[k] = v`: replace the binding in place if the key exists, else append
(Python dict assignment preserves insertion order). -/
def jset (d : JsonDict) (k : String) (v : JVal) : JsonDict :=
  if (List.find? (fun e => e.1 = k) d).isSome then
    d.map (fun e => if e.1 = k then (k, v) else e)
  else d ++ [(k, v)]

/-- `d.pop(k, None)`, the removal part: the dict without the key. -/
def jerase (d : JsonDict) (k : String) : JsonDict :=
  d.filter (fun e => e.1 ≠ k)

/-! ### Notion records and the Dedup + Writer
(`is_duplicate` lines 195-208, `create_notion_entry` lines 211-253) -/

/-- A typed Notion property value. -/
inductive PropVal where
  | title (s : String)
  | richText (s : String)
  | url (s : String)
  | select (s : String)
  | date (s : String)
deriving DecidableEq

/-- An externally visible call issued during a cycle. -/
inductive Effect where
  | fetchPage (url : String)
  | llmCall (page_content url source_url : String) (ctx : Option String)
  | dedupQuery (link : String)
  | dbCreate (properties : List (String × PropVal))
  | reaction (ts emoji : String)
deriving DecidableEq

/-- A rich-text property included only for a truthy (non-empty) value. -/
def optTextProp (name : String) (v : Option String) :
    List (String × PropVal) :=
  match v with
  | some s => if s = "" then [] else [(name, PropVal.richText s)]
  | none => []

/-- The Notion properties mapping built by `create_notion_entry`
(main.py lines 218-245), in insertion order. -/
def mkProperties (details : JsonDict) (source : String)
    (job_listed_date : Option String) : List (String × PropVal) :=
  [("Company Name",
     PropVal.title (pyOrStr (jvalToStr (jget details "company_name")) "Unknown"))]
  ++ optTextProp "Open Role" (jvalToStr (jget details "open_role"))
  ++ optTextProp "Location" (jvalToStr (jget details "location"))
  ++ optTextProp "Compensation Range" (jvalToStr (jget details "compensation_range"))
  ++ optTextProp "Source" (some source)
  ++ (if jvalTruthy (jget details "link_to_apply") then
        [("Link to Apply", PropVal.url (jvalString (jget details "link_to_apply")))]
      else [])
  ++ (match (jget details "job_type").getD (JVal.str "Full-time") with
      | JVal.str s =>
        if s = "Full-time" ∨ s = "Part-time" then [("Job Type", PropVal.select s)]
        else []
      | JVal.null => [])
  ++ (match job_listed_date with
      | some d => if d = "" then [] else [("Job Listed Date", PropVal.date d)]
      | none => [])

/-- `create_notion_entry` over a dedup oracle (the boolean result of
`is_duplicate`, which already folds query failures into `false`) and a
write oracle (whether `notion.pages.create` succeeds): returns the created
flag and the trace of issued calls. -/
def create_notion_entry (dup : String → Bool)
    (createOk : List (String × PropVal) → Bool) (details : JsonDict)
    (source : String) (job_listed_date : Option String) :
    Bool × List Effect :=
  let link := jget details "link_to_apply"
  if jvalTruthy link && dup (jvalString link) then
    (false, [Effect.dedupQuery (jvalString link)])
  else
    let dedupEvents :=
      if jvalTruthy link then [Effect.dedupQuery (jvalString link)] else []
    let properties := mkProperties details source job_listed_date
    (createOk properties, dedupEvents ++ [Effect.dbCreate properties])

/-- The write calls among a trace. -/
def writesIn (ev : List Effect) : List (List (String × PropVal)) :=
  ev.filterMap (fun e =>
    match e with
    | Effect.dbCreate p => some p
    | _ => none)

/-! ### Detail extraction (`extract_job_details`, main.py lines 137-192)

The Claude call and the JSON parse of its reply are an oracle from the
prompt inputs (page content, url, source url, combined context) to the
parsed details or `None`; the guard that skips the call entirely when
there is nothing to extract from is the code's own. -/

/-- `extract_job_details`: `none` without an LLM call when both the page
content and the context are empty/absent, else the oracle's answer. -/
def extract_job_details
    (llm : String → String → String → Option String → Option JsonDict)
    (page_content url source_url : String) (ctx : Option String) :
    Option JsonDict × List Effect :=
  if page_content = "" ∧ ctx.getD "" = "" then (none, [])
  else (llm page_content url source_url ctx,
        [Effect.llmCall page_content url source_url ctx])

/-! ### Messages and the cycle (`poll_and_process`, main.py lines 269-377) -/

/-- A Slack message as the cycle reads it: the raw `ts` string, the numeric
value of `float(ts)` in microseconds (sort key and fallback-date source),
and the text (`msg.get("text", "")`). -/
structure Message where
  ts : String
  tsKey : Int
  text : String
deriving DecidableEq

/-- Stable insertion of a message into a list already sorted by `tsKey`
(before the first strictly-larger key, after equal keys). -/
def insertByTs (m : Message) : List Message → List Message
  | [] => [m]
  | x :: xs => if m.tsKey ≤ x.tsKey then m :: x :: xs else x :: insertByTs m xs

/-- `messages.sort(key=lambda m: float(m["ts"]))`: the stable sort by
timestamp. -/
def sortMessages : List Message → List Message
  | [] => []
  | m :: ms => insertByTs m (sortMessages ms)

/-- The external collaborators of one cycle, fixed for the cycle: the Slack
history response, the network, the LLM (composed with its JSON parsing),
the dedup query result, and the create-call outcome. -/
structure World where
  slackOk : Bool
  slackMessages : List Message
  net : String → HttpResult
  llm : String → String → String → Option String → Option JsonDict
  dupQuery : String → Bool
  createOk : List (String × PropVal) → Bool

/-- The social-post test of the categorization loop (main.py line 313):
`"linkedin.com" in u and ("/feed/" in u or "/posts/" in u or "activity" in u)`. -/
def isLinkedInPostUrl (u : String) : Bool :=
  strContainsSub u "linkedin.com" &&
    (strContainsSub u "/feed/" || strContainsSub u "/posts/" ||
     strContainsSub u "activity")

/-- The URL-categorization loop (main.py lines 309-316): LinkedIn-post
URLs overwrite `linkedin_post_url`; everything else is appended to
`job_urls`. -/
def categorize (urls : List String) : Option String × List String :=
  urls.foldl
    (fun st u =>
      if isLinkedInPostUrl u then (some u, st.2) else (st.1, st.2 ++ [u]))
    (none, [])

/-- Processing of one job URL inside a message (main.py lines 345-372):
fetch, build context, extract details, default the apply link, resolve the
date, write to Notion, react. -/
def processJobUrl (w : World) (text source_url : String)
    (linkedin_post_url : Option String)
    (linkedin_post_content : Option String) (linkedin_date : Option String)
    (slack_date ts : String) (job_url : String) : List Effect :=
  let content := fetch_page_content w.net job_url
  let post_ctx :=
    if linkedin_post_url = some job_url then none else linkedin_post_content
  let slack_ctx :=
    if text = "" then "" else "Slack message text: " ++ text ++ "\n\n"
  let combined := pyStrip (slack_ctx ++ post_ctx.getD "")
  let ctx := if combined = "" then none else some combined
  let fetchEv := [Effect.fetchPage job_url]
  match extract_job_details w.llm content job_url source_url ctx with
  | (none, llmEv) => fetchEv ++ llmEv ++ [Effect.reaction ts "warning"]
  | (some details, llmEv) =>
    let details1 :=
      if jvalTruthy (jget details "link_to_apply") then details
      else jset details "link_to_apply" (JVal.str job_url)
    let popped := jget details1 "job_listed_date"
    let details2 := jerase details1 "job_listed_date"
    let job_date :=
      pyOrStr (jvalToStr popped) (pyOrStr linkedin_date slack_date)
    let res :=
      create_notion_entry w.dupQuery w.createOk details2 source_url
        (some job_date)
    fetchEv ++ llmEv ++ res.2 ++
      (if res.1 then [Effect.reaction ts "white_check_mark"] else [])

/-- The job-URL loop of one message (main.py lines 345-372). -/
def jobUrlLoop (w : World) (msg : Message) (job_urls : List String)
    (source_url : String) (linkedin_post_url : Option String)
    (linkedin_post_content : Option String)
    (linkedin_date : Option String) : List Effect :=
  let slack_date := utcDateStrOfMicros msg.tsKey
  job_urls.foldl
    (fun acc job_url =>
      acc ++
        processJobUrl w msg.text source_url linkedin_post_url
          linkedin_post_content linkedin_date slack_date msg.ts job_url)
    []

/-- The per-message body (main.py lines 306-372), entered only when the
message yielded at least one URL: returns the issued calls and whether the
body raised (the uncaught `fromtimestamp` overflow at line 340, which
aborts the whole cycle). -/
def messageEffects (w : World) (msg : Message) (urls : List String) :
    List Effect × Bool :=
  let cat := categorize urls
  let linkedin_post_url := cat.1
  let job_urls0 := cat.2
  let liData :=
    match linkedin_post_url with
    | some u => (some (fetch_page_content w.net u), [Effect.fetchPage u])
    | none => (none, [])
  let linkedin_post_content := liData.1
  let job_urls :=
    if job_urls0.isEmpty then
      match linkedin_post_url with
      | some u =>
        let embedded :=
          extract_job_urls_from_page (linkedin_post_content.getD "") u
        if embedded.isEmpty then [u] else embedded
      | none => []
    else job_urls0
  let source_url := linkedin_post_url.getD (urls.headD "")
  let decoded :=
    match linkedin_post_url with
    | some u => decode_linkedin_activity_date u
    | none => DecodeResult.noMatch
  match decoded with
  | DecodeResult.error => (liData.2, true)
  | DecodeResult.date s =>
    (liData.2 ++
      jobUrlLoop w msg job_urls source_url linkedin_post_url
        linkedin_post_content (some s), false)
  | DecodeResult.noMatch =>
    (liData.2 ++
      jobUrlLoop w msg job_urls source_url linkedin_post_url
        linkedin_post_content none, false)

/-- One iteration of the message loop (main.py lines 298-374), threading
the accumulated trace, `latest_ts`, and whether the cycle has raised.  A
message with no URLs hits the `continue` before `latest_ts = ts`, so it
leaves the state unchanged; once a message raised, nothing further runs. -/
def cycleStep (w : World) (st : List Effect × String × Bool)
    (msg : Message) : List Effect × String × Bool :=
  if st.2.2 then st
  else
    let urls := extract_urls msg.text
    if urls.isEmpty then st
    else
      let r := messageEffects w msg urls
      if r.2 then (st.1 ++ r.1, st.2.1, true)
      else (st.1 ++ r.1, msg.ts, false)

/-- The observable outcome of one `poll_and_process` call: the trace of
issued calls, the checkpoint value that is persisted at the end of the
cycle (unchanged if the cycle aborted early), and whether
`save_last_processed_ts` ran. -/
structure CycleResult where
  trace : List Effect
  checkpoint : String
  saved : Bool
deriving DecidableEq

/-- `poll_and_process` (main.py lines 269-377) over a `World`, starting
from the persisted checkpoint `last_ts`.  A raise inside the message loop
propagates (caught only by the scheduler), so `save_last_processed_ts`
does not run and the persisted checkpoint keeps its prior value. -/
def poll_and_process (w : World) (last_ts : String) : CycleResult :=
  if !w.slackOk then { trace := [], checkpoint := last_ts, saved := false }
  else if w.slackMessages.isEmpty then
    { trace := [], checkpoint := last_ts, saved := false }
  else
    let sorted := sortMessages w.slackMessages
    let st := sorted.foldl (cycleStep w) ([], last_ts, false)
    if st.2.2 then { trace := st.1, checkpoint := last_ts, saved := false }
    else { trace := st.1, checkpoint := st.2.1, saved := true }

/-- The sequence of Notion create calls a cycle issued, in order, with
their field mappings. -/
def createCalls (r : CycleResult) : List (List (String × PropVal)) :=
  writesIn r.trace

/-! ### The outer retry loop (src/scheduler.py lines 15-23) -/

/-- What one `poll_and_process()` call does from the loop's point of view:
returns normally or raises (any `Exception`; external process termination
is out of scope per the source's deployment model). -/
inductive CycleOutcome where
  | ok
  | err (msg : String)
deriving DecidableEq

/-- An observable step of the scheduler loop. -/
inductive LoopEvent where
  | cycle (o : CycleOutcome)
  | logError (msg : String)
  | sleep (seconds : Nat)
deriving DecidableEq

/-- The events of the `n`-th loop iteration (scheduler.py lines 17-23):
run the cycle, log if it raised, then always sleep 30 seconds. -/
def loopIteration (outcomes : Nat → CycleOutcome) (n : Nat) : List LoopEvent :=
  [LoopEvent.cycle (outcomes n)] ++
    (match outcomes n with
     | CycleOutcome.ok => []
     | CycleOutcome.err m => [LoopEvent.logError m]) ++
    [LoopEvent.sleep 30]

/-- The trace of the first `n` iterations of `while True: try ... except
Exception ...; sleep`. -/
def schedulerRun (outcomes : Nat → CycleOutcome) : Nat → List LoopEvent
  | 0 => []
  | n + 1 => schedulerRun outcomes n ++ loopIteration outcomes n

/-- The number of cycles begun in a trace. -/
def cycleCount (ev : List LoopEvent) : Nat :=
  ev.countP (fun e =>
    match e with
    | LoopEvent.cycle _ => true
    | _ => false)


/-! ## Theorems -/

/-- Helper: characterization of the categorization fold from any starting
state. -/
theorem categorize_foldl (l : List String) (a : Option String)
    (b : List String) :
    l.foldl
      (fun st u =>
        if isLinkedInPostUrl u then (some u, st.2) else (st.1, st.2 ++ [u]))
      (a, b) =
    (((l.filter isLinkedInPostUrl).getLast?).or a,
      b ++ l.filter (fun u => !isLinkedInPostUrl u)) := by
  induction l using List.reverseRecOn with
  | nil => simp
  | append_singleton l u ih =>
    by_cases hp : isLinkedInPostUrl u
    · simp [List.foldl_append, ih, List.filter_append, hp,
        List.getLast?_concat]
    · simp [List.foldl_append, ih, List.filter_append, hp]

/-- Claim C2 (amended): among the URLs matching the LinkedIn social-post
shapes, the LAST one encountered is kept as the social-post URL; every
non-matching URL goes to the direct-job list, in order. -/
theorem categorize_keeps_last (urls : List String) :
    (categorize urls).1 = (urls.filter isLinkedInPostUrl).getLast? ∧
    (categorize urls).2 = urls.filter (fun u => !isLinkedInPostUrl u) := by
  unfold categorize
  rw [categorize_foldl]
  simp

/-- Claim C2 counterexample: with two social-post URLs in the list, the one
kept is the second, not the first. -/
theorem categorize_first_counterexample :
    (categorize
      ["https://linkedin.com/posts/a", "https://linkedin.com/posts/b"]).1 =
      some "https://linkedin.com/posts/b" ∧
    (["https://linkedin.com/posts/a", "https://linkedin.com/posts/b"].filter
        isLinkedInPostUrl).head? = some "https://linkedin.com/posts/a" ∧
    ("https://linkedin.com/posts/b" : String) ≠
      "https://linkedin.com/posts/a" := by
  decide

/-- Claim C6: when the Slack response is not ok the cycle aborts before any
message is processed: no page fetch, no LLM call, no database query or
write, no reaction is issued, and the checkpoint is untouched. -/
theorem source_unavailable_aborts (w : World) (last_ts : String)
    (h : w.slackOk = false) :
    (poll_and_process w last_ts).trace = [] ∧
    (poll_and_process w last_ts).checkpoint = last_ts ∧
    (poll_and_process w last_ts).saved = false := by
  simp [poll_and_process, h]

/-- A world whose Slack adapter reports a non-ok status while messages are
pending. -/
def wSlackDown : World :=
  { slackOk := false
    slackMessages := [⟨"9.0", 9000000, "see <https://jobs.lever.co/a/1>"⟩]
    net := fun _ => HttpResult.failure
    llm := fun _ _ _ _ => none
    dupQuery := fun _ => false
    createOk := fun _ => true }

/-- Claim C6 witness: concrete aborted cycle. -/
theorem source_unavailable_witness :
    (poll_and_process wSlackDown "42.0").trace = [] ∧
    (poll_and_process wSlackDown "42.0").checkpoint = "42.0" ∧
    (poll_and_process wSlackDown "42.0").saved = false :=
  source_unavailable_aborts wSlackDown "42.0" rfl

/-- Claim C10: the cycle is deterministic in its environment: two worlds
answering every Slack/fetch/LLM/database request identically produce the
same sequence of create calls with the same field values and persist the
same checkpoint. -/
theorem cycle_deterministic (w1 w2 : World) (last_ts : String)
    (hok : w1.slackOk = w2.slackOk)
    (hmsg : w1.slackMessages = w2.slackMessages)
    (hnet : ∀ u, w1.net u = w2.net u)
    (hllm : ∀ c u s x, w1.llm c u s x = w2.llm c u s x)
    (hdup : ∀ l, w1.dupQuery l = w2.dupQuery l)
    (hcreate : ∀ p, w1.createOk p = w2.createOk p) :
    createCalls (poll_and_process w1 last_ts) =
      createCalls (poll_and_process w2 last_ts) ∧
    (poll_and_process w1 last_ts).checkpoint =
      (poll_and_process w2 last_ts).checkpoint := by
  have hw : w1 = w2 := by
    cases w1
    cases w2
    simp only at hok hmsg hnet hllm hdup hcreate
    congr 1
    · exact funext hnet
    · exact funext fun c => funext fun u => funext fun s => funext fun x =>
        hllm c u s x
    · exact funext hdup
    · exact funext hcreate
  rw [hw]
  exact ⟨rfl, rfl⟩

/-- A concrete world for the determinism witness. -/
def wDet : World :=
  { slackOk := true
    slackMessages := [⟨"7.0", 7000000, "see <https://jobs.lever.co/a/1>"⟩]
    net := fun _ => HttpResult.failure
    llm := fun _ _ _ _ =>
      some [("company_name", JVal.str "Acme"), ("job_type", JVal.null)]
    dupQuery := fun _ => false
    createOk := fun _ => true }

/-- Claim C10 witness: the determinism theorem applied at a concrete world
(compared with itself, every oracle answering identically). -/
theorem cycle_deterministic_witness :
    createCalls (poll_and_process wDet "0") =
      createCalls (poll_and_process wDet "0") ∧
    (poll_and_process wDet "0").checkpoint =
      (poll_and_process wDet "0").checkpoint :=
  cycle_deterministic wDet wDet "0" rfl rfl (fun _ => rfl)
    (fun _ _ _ _ => rfl) (fun _ => rfl) (fun _ => rfl)

/-- Claim C8: the outer loop never terminates on its own: after any `n`
completed iterations — whatever the cycle outcomes, including a raising
cycle — iteration `n` runs the cycle, logs the error if it raised, sleeps
the fixed 30 seconds, and the next iteration begins; `n` iterations always
begin exactly `n` cycles. -/
theorem scheduler_always_continues (outcomes : Nat → CycleOutcome)
    (n : Nat) :
    cycleCount (schedulerRun outcomes n) = n ∧
    schedulerRun outcomes (n + 1) =
      schedulerRun outcomes n ++
        ([LoopEvent.cycle (outcomes n)] ++
          (match outcomes n with
           | CycleOutcome.ok => []
           | CycleOutcome.err m => [LoopEvent.logError m]) ++
          [LoopEvent.sleep 30]) := by
  constructor
  · induction n with
    | zero => rfl
    | succ n ih =>
      have h1 : cycleCount (loopIteration outcomes n) = 1 := by
        cases h : outcomes n <;> simp [loopIteration, cycleCount, h]
      have h2 : cycleCount (schedulerRun outcomes (n + 1)) =
          cycleCount (schedulerRun outcomes n) +
            cycleCount (loopIteration outcomes n) := by
        simp [schedulerRun, cycleCount, List.countP_append]
      rw [h2, ih, h1]
  · rfl

/-- Helper: every entry contributed by `optTextProp name v` has key
`name`. -/
theorem mem_optTextProp {e : String × PropVal} {name : String}
    {v : Option String} (h : e ∈ optTextProp name v) : e.1 = name := by
  unfold optTextProp at h
  split at h
  · split at h
    · simp at h
    · simp at h
      rw [h]
  · simp at h

/-- Helper: a "Job Type" entry of the properties mapping can only come from
the select segment, so `details.get("job_type", "Full-time")` was a string
among the two recognized values. -/
theorem mem_jobType_mkProperties {details : JsonDict} {source : String}
    {jd : Option String} {v : PropVal}
    (h : ("Job Type", v) ∈ mkProperties details source jd) :
    ∃ s, (jget details "job_type").getD (JVal.str "Full-time") = JVal.str s ∧
      (s = "Full-time" ∨ s = "Part-time") ∧ v = PropVal.select s := by
  unfold mkProperties at h
  simp only [List.mem_append, or_assoc] at h
  rcases h with h | h | h | h | h | h | h | h
  · simp at h
  · have := mem_optTextProp h
    simp at this
  · have := mem_optTextProp h
    simp at this
  · have := mem_optTextProp h
    simp at this
  · have := mem_optTextProp h
    simp at this
  · split at h <;> simp at h
  · split at h
    · rename_i s heq
      split at h
      · rename_i hcond
        simp at h
        exact ⟨s, heq, hcond, h⟩
      · simp at h
    · simp at h
  · split at h
    · split at h <;> simp at h
    · simp at h

/-- Claim C9: a write call's properties never carry a "Job Type" field when
the details dict binds `job_type` to JSON null (the `"Full-time"` default
of `details.get("job_type", "Full-time")` fires only when the key is
entirely absent, in which case "Job Type" is set to "Full-time"). -/
theorem job_type_null_omitted (dup : String → Bool)
    (createOk : List (String × PropVal) → Bool) (details : JsonDict)
    (source : String) (jd : Option String) :
    ∀ p ∈ writesIn (create_notion_entry dup createOk details source jd).2,
      (jget details "job_type" = some JVal.null →
        ∀ v, ("Job Type", v) ∉ p) ∧
      (jget details "job_type" = none →
        ("Job Type", PropVal.select "Full-time") ∈ p) := by
  intro p hp
  have hp' : p = mkProperties details source jd := by
    simp only [create_notion_entry] at hp
    split at hp
    · simp [writesIn] at hp
    · simp only [writesIn, List.filterMap_append] at hp
      split at hp <;> simp [writesIn, List.filterMap] at hp <;> exact hp
  subst hp'
  constructor
  · intro h v hv
    obtain ⟨s, hs, _, _⟩ := mem_jobType_mkProperties hv
    rw [h] at hs
    simp at hs
  · intro h
    simp [mkProperties, h]

/-- Details dict with `job_type` present but null, as the LLM is told to
produce for a missing field. -/
def dNullJobType : JsonDict :=
  [("company_name", JVal.str "Acme"),
   ("job_type", JVal.null),
   ("link_to_apply", JVal.str "https://jobs.example/1")]

/-- Details dict with no `job_type` key at all. -/
def dNoJobType : JsonDict :=
  [("company_name", JVal.str "Acme"),
   ("link_to_apply", JVal.str "https://jobs.example/1")]

/-- Claim C9 witness: on a concrete write with null `job_type` the
properties carry no "Job Type" field; with the key absent they carry the
"Full-time" default. -/
theorem job_type_null_omitted_witness :
    ("Job Type", PropVal.select "Full-time") ∉
      mkProperties dNullJobType "src" none ∧
    ("Job Type", PropVal.select "Full-time") ∈
      mkProperties dNoJobType "src" none :=
  ⟨(job_type_null_omitted (fun _ => false) (fun _ => true) dNullJobType
      "src" none (mkProperties dNullJobType "src" none) (by decide)).1
      (by decide) (PropVal.select "Full-time"),
   (job_type_null_omitted (fun _ => false) (fun _ => true) dNoJobType
      "src" none (mkProperties dNoJobType "src" none) (by decide)).2
      (by decide)⟩

/-! ### Dedup against a faithful database state (claim C3) -/

/-- The Notion database contents as the dedup query sees them: the
property maps of previously created pages. -/
abbrev NotionDb := List (List (String × PropVal))

/-- The existence query of `is_duplicate` (main.py lines 198-205): some
page's "Link to Apply" URL property equals the link. -/
def dbHasLink (db : NotionDb) (link : String) : Bool :=
  db.any (fun page =>
    page.any (fun e => e = ("Link to Apply", PropVal.url link)))

/-- The number of records whose "Link to Apply" URL property equals the
link. -/
def countLink (db : NotionDb) (link : String) : Nat :=
  db.countP (fun page =>
    page.any (fun e => e = ("Link to Apply", PropVal.url link)))

/-- One invocation of the Dedup+Writer create path against a database
state whose existence query faithfully reflects prior creates:
`is_duplicate` answers from `db`, the write succeeds, and a successful
create appends the written page. -/
def create_cycle (db : NotionDb) (details : JsonDict) (source : String)
    (jd : Option String) : Bool × List Effect × NotionDb :=
  let r := create_notion_entry (fun l => dbHasLink db l) (fun _ => true)
    details source jd
  (r.1, r.2, db ++ writesIn r.2)

/-- Helper: with a truthy apply link that the dedup oracle reports absent,
`create_notion_entry` queries, then writes the properties mapping. -/
theorem create_notion_entry_not_dup (dup : String → Bool)
    (createOk : List (String × PropVal) → Bool) (details : JsonDict)
    (source : String) (jd : Option String)
    (htr : jvalTruthy (jget details "link_to_apply") = true)
    (hd : dup (jvalString (jget details "link_to_apply")) = false) :
    create_notion_entry dup createOk details source jd =
      (createOk (mkProperties details source jd),
       [Effect.dedupQuery (jvalString (jget details "link_to_apply")),
        Effect.dbCreate (mkProperties details source jd)]) := by
  simp [create_notion_entry, htr, hd]

/-- Helper: with a truthy apply link that the dedup oracle reports present,
`create_notion_entry` only queries and returns "not created". -/
theorem create_notion_entry_dup (dup : String → Bool)
    (createOk : List (String × PropVal) → Bool) (details : JsonDict)
    (source : String) (jd : Option String)
    (htr : jvalTruthy (jget details "link_to_apply") = true)
    (hd : dup (jvalString (jget details "link_to_apply")) = true) :
    create_notion_entry dup createOk details source jd =
      (false,
       [Effect.dedupQuery (jvalString (jget details "link_to_apply"))]) := by
  simp [create_notion_entry, htr, hd]

/-- Helper: a truthy apply link is written into the properties as the
"Link to Apply" URL field. -/
theorem mkProperties_link_mem {details : JsonDict} {source : String}
    {jd : Option String} {link : String}
    (h : jget details "link_to_apply" = some (JVal.str link))
    (hne : link ≠ "") :
    ("Link to Apply", PropVal.url link) ∈ mkProperties details source jd := by
  simp [mkProperties, h, jvalTruthy, jvalString, hne]

/-- Claim C3: for a fixed non-empty apply-link URL absent from the
database, running the Dedup+Writer create path twice in sequence creates
on the first invocation, returns "not created" on the second, leaves
exactly one record with that URL, and issues no write call on the second
invocation. -/
theorem dedup_idempotent (db : NotionDb) (details : JsonDict)
    (source : String) (jd : Option String) (link : String)
    (hlink : jget details "link_to_apply" = some (JVal.str link))
    (hne : link ≠ "") (habs : dbHasLink db link = false) :
    (create_cycle db details source jd).1 = true ∧
    (create_cycle (create_cycle db details source jd).2.2 details source
        jd).1 = false ∧
    countLink
      (create_cycle (create_cycle db details source jd).2.2 details source
        jd).2.2 link = 1 ∧
    writesIn
      (create_cycle (create_cycle db details source jd).2.2 details source
        jd).2.1 = [] := by
  have htr : jvalTruthy (jget details "link_to_apply") = true := by
    simp [jvalTruthy, hlink, hne]
  have hstr : jvalString (jget details "link_to_apply") = link := by
    simp [jvalString, hlink]
  have h1 :
      create_cycle db details source jd =
        (true,
         [Effect.dedupQuery link,
          Effect.dbCreate (mkProperties details source jd)],
         db ++ [mkProperties details source jd]) := by
    rw [create_cycle, create_notion_entry_not_dup _ _ _ _ _ htr
      (by rw [hstr]; exact habs), hstr]
    simp [writesIn, List.filterMap]
  have hmem : ("Link to Apply", PropVal.url link) ∈
      mkProperties details source jd := mkProperties_link_mem hlink hne
  have hdb1 : dbHasLink (db ++ [mkProperties details source jd]) link =
      true := by
    rw [dbHasLink, List.any_append]
    have : (mkProperties details source jd).any
        (fun e => e = ("Link to Apply", PropVal.url link)) = true :=
      List.any_eq_true.mpr ⟨_, hmem, by simp⟩
    simp [this]
  have h2 :
      create_cycle (db ++ [mkProperties details source jd]) details source
          jd =
        (false, [Effect.dedupQuery link],
         db ++ [mkProperties details source jd]) := by
    rw [create_cycle, create_notion_entry_dup _ _ _ _ _ htr
      (by rw [hstr]; exact hdb1), hstr]
    simp [writesIn, List.filterMap]
  rw [h1]
  simp only [h2]
  refine ⟨by trivial, by trivial, ?_, by trivial⟩
  have hzero : countLink db link = 0 := by
    rw [countLink, List.countP_eq_zero]
    intro page hpage
    have := List.any_eq_false.mp habs page hpage
    simpa using this
  have hany : ((mkProperties details source jd).any
      (fun e => e = ("Link to Apply", PropVal.url link))) = true :=
    List.any_eq_true.mpr ⟨_, hmem, by simp⟩
  rw [countLink, List.countP_append, ← countLink, hzero]
  simp [List.countP, List.countP.go, hany]

/-- A concrete details dict with a fixed apply link. -/
def dApply : JsonDict :=
  [("company_name", JVal.str "Acme"),
   ("link_to_apply", JVal.str "https://jobs.example/role/7")]

/-- Claim C3 witness: the idempotence theorem evaluated from the empty
database with a concrete link. -/
theorem dedup_idempotent_witness :
    (create_cycle [] dApply "src" (some "2024-05-01")).1 = true ∧
    (create_cycle (create_cycle [] dApply "src" (some "2024-05-01")).2.2
        dApply "src" (some "2024-05-01")).1 = false ∧
    countLink
      (create_cycle (create_cycle [] dApply "src" (some "2024-05-01")).2.2
        dApply "src" (some "2024-05-01")).2.2 "https://jobs.example/role/7" =
      1 ∧
    writesIn
      (create_cycle (create_cycle [] dApply "src" (some "2024-05-01")).2.2
        dApply "src" (some "2024-05-01")).2.1 = [] :=
  dedup_idempotent [] dApply "src" (some "2024-05-01")
    "https://jobs.example/role/7" (by decide) (by decide) (by decide)

/-! ### Page fetcher totality (claim C7) -/

/-- Claim C7 (amended): the page fetcher is total — it returns the body
truncated to 15000 characters on any response whose status lies outside
400-599 (`raise_for_status` raises exactly for 4xx/5xx, so 2xx, surviving
1xx/3xx, and out-of-band statuses such as LinkedIn's 999 all return their
body), the empty string on a network error, timeout, or status in
400-599, and the result never exceeds 15000 characters. -/
theorem fetch_page_content_total (net : String → HttpResult)
    (url : String) :
    (∀ s t, net url = HttpResult.response s t → 400 ≤ s → s < 600 →
      fetch_page_content net url = "") ∧
    (∀ s t, net url = HttpResult.response s t → ¬(400 ≤ s ∧ s < 600) →
      fetch_page_content net url = ⟨t.data.take 15000⟩) ∧
    (net url = HttpResult.failure → fetch_page_content net url = "") ∧
    (fetch_page_content net url).length ≤ 15000 := by
  refine ⟨?_, ?_, ?_, ?_⟩
  · intro s t h hs hs'
    simp [fetch_page_content, h, hs, hs']
  · intro s t h hs
    simp [fetch_page_content, h, hs]
  · intro h
    simp [fetch_page_content, h]
  · unfold fetch_page_content
    split
    · split
      · simp [String.length]
      · rename_i t _ _
        show (List.take 15000 t.data).length ≤ 15000
        rw [List.length_take]
        exact min_le_left _ _
    · simp [String.length]

/-- A network oracle answering 200 with a body. -/
def netOk : String → HttpResult :=
  fun _ => HttpResult.response 200 "<html>role</html>"

/-- A network oracle that always times out. -/
def netDown : String → HttpResult := fun _ => HttpResult.failure

/-- A network oracle answering 404 with an error page. -/
def net404 : String → HttpResult :=
  fun _ => HttpResult.response 404 "not found"

/-- Claim C7 witness: the totality theorem evaluated at a 200 response, a
404 response, and a network failure. -/
theorem fetch_page_content_total_witness :
    fetch_page_content netOk "https://jobs.example/role/7" =
      "<html>role</html>" ∧
    fetch_page_content net404 "https://jobs.example/role/7" = "" ∧
    fetch_page_content netDown "https://jobs.example/role/7" = "" :=
  ⟨((fetch_page_content_total netOk "https://jobs.example/role/7").2.1 200
      "<html>role</html>" rfl (by decide)).trans (by decide),
   (fetch_page_content_total net404 "https://jobs.example/role/7").1 404
      "not found" rfl (by decide) (by decide),
   (fetch_page_content_total netDown "https://jobs.example/role/7").2.2.1
      rfl⟩

/-- A network oracle answering status 999 (LinkedIn's bot-block status)
with a body — outside `raise_for_status`'s 400-599 window, so the body is
returned. -/
def net999 : String → HttpResult :=
  fun _ => HttpResult.response 999 "request denied"

/-- Claim C7 counterexample: a non-2xx response is NOT always converted to
the empty string — at status 999 the body is returned. -/
theorem fetch_page_content_non2xx_counterexample :
    fetch_page_content net999 "https://www.linkedin.com/posts/x" =
      "request denied" ∧
    ("request denied" : String) ≠ "" ∧ ¬(200 ≤ 999 ∧ 999 < 300) := by
  refine ⟨by decide, by decide, by decide⟩

/-! ### URL-extractor character properties (claim C4) -/

/-- Helper: the characters consumed as the scheme are among
`h t p s : /`. -/
theorem schemeSplit_mem {cs sch rest : List Char}
    (h : schemeSplit cs = some (sch, rest)) :
    ∀ c ∈ sch,
      c = 'h' ∨ c = 't' ∨ c = 'p' ∨ c = 's' ∨ c = ':' ∨ c = '/' := by
  simp only [schemeSplit] at h
  split at h
  · simp only [Option.some.injEq, Prod.mk.injEq] at h
    rw [← h.1]
    decide
  · split at h
    · simp only [Option.some.injEq, Prod.mk.injEq] at h
      rw [← h.1]
      decide
    · simp at h

/-- Helper: a captured Slack bracket-link group contains neither `>` nor
`|`. -/
theorem matchSlackAt_chars {cs g rest : List Char}
    (h : matchSlackAt cs = some (g, rest)) :
    ∀ c ∈ g, ¬(c = '>' ∨ c = '|') := by
  unfold matchSlackAt at h
  split at h
  · rename_i cs1
    split at h
    · simp at h
    · rename_i scheme cs2 hscheme
      simp only at h
      split at h
      · simp at h
      · intro c hc
        have hg : g = scheme ++ cs2.takeWhile (fun c => ¬(c = '>' ∨ c = '|')) := by
          split at h
          · simp only [Option.some.injEq, Prod.mk.injEq] at h
            exact h.1.symm
          · split at h
            · simp only [Option.some.injEq, Prod.mk.injEq] at h
              exact h.1.symm
            · simp at h
          · simp at h
        rw [hg] at hc
        rcases List.mem_append.mp hc with hc | hc
        · have := schemeSplit_mem hscheme c hc
          rcases this with h | h | h | h | h | h <;> subst h <;> decide
        · have := List.mem_takeWhile_imp hc
          simpa using this
  · simp at h

/-- Helper: every group the Slack bracket scan emits contains neither `>`
nor `|`. -/
theorem scanSlack_chars :
    ∀ (fuel : Nat) (cs : List Char), ∀ g ∈ scanSlack fuel cs,
      ∀ c ∈ g, ¬(c = '>' ∨ c = '|') := by
  intro fuel
  induction fuel with
  | zero =>
    intro cs g hg
    simp [scanSlack] at hg
  | succ n ih =>
    intro cs g hg
    match cs with
    | [] => simp [scanSlack] at hg
    | c0 :: cs0 =>
      simp only [scanSlack] at hg
      cases hm : matchSlackAt (c0 :: cs0) with
      | some pr =>
        obtain ⟨g0, rest⟩ := pr
        rw [hm] at hg
        simp only at hg
        rcases List.mem_cons.mp hg with h | h
        · subst h
          exact matchSlackAt_chars hm
        · exact ih rest g h
      | none =>
        rw [hm] at hg
        exact ih cs0 g hg

/-- Helper: a bare-URL group contains no stop character, provided the
scheme characters are not stop characters. -/
theorem matchBareAt_chars {stop : Char → Bool} {cs g rest : List Char}
    (hsch : ∀ c,
      (c = 'h' ∨ c = 't' ∨ c = 'p' ∨ c = 's' ∨ c = ':' ∨ c = '/') →
      stop c = false)
    (h : matchBareAt stop cs = some (g, rest)) :
    ∀ c ∈ g, stop c = false := by
  unfold matchBareAt at h
  split at h
  · simp at h
  · rename_i scheme cs2 hscheme
    simp only at h
    split at h
    · simp at h
    · simp only [Option.some.injEq, Prod.mk.injEq] at h
      intro c hc
      rw [← h.1] at hc
      rcases List.mem_append.mp hc with hc | hc
      · exact hsch c (schemeSplit_mem hscheme c hc)
      · have := List.mem_takeWhile_imp hc
        simpa using this

/-- Helper: every group the bare scan emits contains no stop character. -/
theorem scanBare_chars {stop : Char → Bool}
    (hsch : ∀ c,
      (c = 'h' ∨ c = 't' ∨ c = 'p' ∨ c = 's' ∨ c = ':' ∨ c = '/') →
      stop c = false) :
    ∀ (fuel : Nat) (cs : List Char), ∀ g ∈ scanBare stop fuel cs,
      ∀ c ∈ g, stop c = false := by
  intro fuel
  induction fuel with
  | zero =>
    intro cs g hg
    simp [scanBare] at hg
  | succ n ih =>
    intro cs g hg
    match cs with
    | [] => simp [scanBare] at hg
    | c0 :: cs0 =>
      simp only [scanBare] at hg
      cases hm : matchBareAt stop (c0 :: cs0) with
      | some pr =>
        obtain ⟨g0, rest⟩ := pr
        rw [hm] at hg
        simp only at hg
        rcases List.mem_cons.mp hg with h | h
        · subst h
          exact matchBareAt_chars hsch hm
        · exact ih rest g h
      | none =>
        rw [hm] at hg
        exact ih cs0 g hg

/-- Helper: the scheme characters are not fallback stop characters. -/
theorem stopBare_scheme (c : Char)
    (h : c = 'h' ∨ c = 't' ∨ c = 'p' ∨ c = 's' ∨ c = ':' ∨ c = '/') :
    stopBare c = false := by
  rcases h with h | h | h | h | h | h <;> subst h <;> decide

/-- Claim C4 (amended): if at least one bracket-delimited link is present,
`extract_urls` returns exactly the unwrapped bracket URLs — never the
closing bracket, the pipe, or the label (a literal `<` may occur inside a
URL) — and ignores all bare-URL-shaped substrings; only when no bracket
match exists does it return the bare http(s) tokens, which contain no
whitespace, quote, or angle-bracket character. -/
theorem extract_urls_spec (text : String) :
    (slackMatches text ≠ [] →
      extract_urls text = slackMatches text ∧
      ∀ u ∈ extract_urls text, ∀ c ∈ u.data, ¬(c = '>' ∨ c = '|')) ∧
    (slackMatches text = [] →
      extract_urls text = bareMatches text ∧
      ∀ u ∈ extract_urls text, ∀ c ∈ u.data, stopBare c = false) := by
  constructor
  · intro h
    have he : (slackMatches text).isEmpty = false := by
      simpa using h
    have heq : extract_urls text = slackMatches text := by
      simp [extract_urls, he]
    refine ⟨heq, ?_⟩
    rw [heq]
    intro u hu c hc
    obtain ⟨cs, hcs, hu'⟩ := List.mem_map.mp (by
      simpa only [slackMatches] using hu)
    rw [← hu'] at hc
    exact scanSlack_chars text.data.length text.data cs hcs c hc
  · intro h
    have he : (slackMatches text).isEmpty = true := by
      simp [h]
    have heq : extract_urls text = bareMatches text := by
      simp [extract_urls, he]
    refine ⟨heq, ?_⟩
    rw [heq]
    intro u hu c hc
    obtain ⟨cs, hcs, hu'⟩ := List.mem_map.mp (by
      simpa only [bareMatches] using hu)
    rw [← hu'] at hc
    exact scanBare_chars stopBare_scheme text.data.length text.data cs hcs
      c hc

/-- Claim C4 witness: both rules evaluated on concrete texts — a bracketed
link with a label next to a bare URL yields only the unwrapped bracket
URL; plain text falls back to bare tokens. -/
theorem extract_urls_spec_witness :
    extract_urls "see <https://example.com/a|go> https://bare.io" =
      ["https://example.com/a"] ∧
    extract_urls "go https://a.io/x now" = ["https://a.io/x"] :=
  ⟨((extract_urls_spec
      "see <https://example.com/a|go> https://bare.io").1
      (by decide)).1.trans (by decide),
   ((extract_urls_spec "go https://a.io/x now").2 (by decide)).1.trans
      (by decide)⟩

/-- Claim C4 counterexample: a bracketed URL may contain a literal `<`
(the regex class `[^>|]` excludes only `>` and `|`), so "no bracket
characters" fails for `<`. -/
theorem extract_urls_angle_counterexample :
    extract_urls "<https://a<b>" = ["https://a<b"] ∧
    '<' ∈ ("https://a<b" : String).data := by
  exact ⟨by decide, by decide⟩

/-! ### Activity-date decoder correctness (claim C5) -/

